import Mathlib

/-!
Verification of the Devoxx2025-AzureAIAgents repository specification.

The repository is a workshop notebook (`SemanticKernel/sk-main.ipynb`) that
wires an LLM completion service to a plugin registry and a retrieval
backend.  The specification abstracts the reusable core — a Function
Registry, a Context Assembler and a Conversation Loop — and this file
embeds that core.  The conversation glue (`chat_with_assistant`) is
embedded directly from the notebook source; the registry and assembler
operations live in plugin files and in the vendor SDK that are not part
of the provided sources, so they are modelled from the specification's
own words, as marked in their doc comments.
-/

/- ## Data model -/

/-- Primitive schema types admitted for function parameters
(string, number, boolean, enumerated list). -/
inductive PrimType
  | str
  | num
  | bool
  | enum (options : List String)
deriving Repr, DecidableEq

/-- A parameter of a function schema: name, type and required flag. -/
structure ParamSpec where
  name : String
  type : PrimType
  required : Bool
deriving Repr, DecidableEq

/-- FunctionDescriptor: name, description, ordered parameter schema. -/
structure FunctionDescriptor where
  name : String
  description : String
  params : List ParamSpec
deriving Repr, DecidableEq

/-- Runtime values passed as arguments and returned by implementations. -/
inductive Value
  | vStr (s : String)
  | vNum (n : Int)
  | vBool (b : Bool)
deriving Repr, DecidableEq

/-- Named argument sets handed to `invoke`. -/
def Args := List (String × Value)

/-- An implementation is a callable that either returns a value or
raises (modelled by `Except` with a message). -/
def Impl := Args → Except String Value

/-- Errors of the registry, from the spec's error taxonomy. -/
inductive RegistryError
  | DuplicateNameError
  | UnknownFunctionError
  | ArgumentValidationError
  | FunctionExecutionError (msg : String)
deriving Repr, DecidableEq

/-- Registry: a namespaced mapping from (namespace, function name) to
(descriptor, callable), kept in registration order. -/
structure Registry where
  entries : List (String × FunctionDescriptor × Impl)

/- ## Function Registry operations -/

/-- Does a runtime value conform to a schema type? -/
def matchesType : Value → PrimType → Bool
  | .vStr _, .str => true
  | .vNum _, .num => true
  | .vBool _, .bool => true
  | .vStr s, .enum options => options.contains s
  | _, _ => false

/-- Modelled from the spec: `invoke` "validates `arguments` against the
descriptor's parameter schema (type and required-field checks)"; the
concrete validator lives in the vendor SDK, absent from the sources. -/
def validateArgs (params : List ParamSpec) (args : Args) : Bool :=
  params.all fun p =>
    match args.find? (fun a => a.1 == p.name) with
    | some a => matchesType a.2 p.type
    | none => !p.required

/-- Find the (descriptor, implementation) registered under
`(ns, nm)`, if any. -/
def Registry.lookup (r : Registry) (ns nm : String) :
    Option (FunctionDescriptor × Impl) :=
  (r.entries.find? (fun e => e.1 == ns && e.2.1.name == nm)).map (·.2)

/-- Modelled from the spec: `register(namespace, descriptor,
implementation)` "fails with DuplicateNameError if `(namespace,
descriptor.name)` already exists; otherwise inserts and returns
nothing"; the notebook delegates this to the vendor `kernel.add_plugin`,
absent from the sources. -/
def Registry.register (r : Registry) (ns : String) (d : FunctionDescriptor)
    (impl : Impl) : Except RegistryError Registry :=
  match r.lookup ns d.name with
  | some _ => .error .DuplicateNameError
  | none => .ok ⟨r.entries ++ [(ns, d, impl)]⟩

/-- Modelled from the spec: `unregister(namespace)` "removes all
functions under that namespace; no-op (not an error) if namespace
absent"; the notebook delegates this to `del kernel.plugins[...]`,
absent from the sources. -/
def Registry.unregister (r : Registry) (ns : String) : Registry :=
  ⟨r.entries.filter (fun e => e.1 != ns)⟩

/-- Modelled from the spec: `catalog()` "returns an
ordered-by-registration-time sequence of all FunctionDescriptors with
their namespace prefix"; the notebook enumerates the vendor
`kernel.plugins.items()`, absent from the sources. -/
def Registry.catalog (r : Registry) : List (String × FunctionDescriptor) :=
  r.entries.map (fun e => (e.1, e.2.1))

/-- Modelled from the spec: `invoke(namespace, name, arguments)` "fails
with UnknownFunctionError if not found, with ArgumentValidationError if
schema mismatch; otherwise calls the implementation and returns its
result verbatim (success) or fails with FunctionExecutionError wrapping
the underlying failure"; dispatch lives in the vendor SDK, absent from
the sources. -/
def Registry.invoke (r : Registry) (ns nm : String) (args : Args) :
    Except RegistryError Value :=
  match r.lookup ns nm with
  | none => .error .UnknownFunctionError
  | some (d, impl) =>
    if validateArgs d.params args then
      match impl args with
      | .ok v => .ok v
      | .error e => .error (.FunctionExecutionError e)
    else
      .error .ArgumentValidationError

/- ## Context Assembler -/

/-- A ranked document as produced by the external index-search
collaborator: identifier, excerpt text, relevance score. -/
structure RawDoc where
  sourceId : String
  excerpt : String
  score : Int
deriving Repr, DecidableEq

/-- RetrievedFragment: source identifier, rank (1..k), excerpt text
(bounded length), relevance score. -/
structure RetrievedFragment where
  sourceId : String
  rank : Nat
  excerpt : String
  score : Int
deriving Repr, DecidableEq

/-- Errors of the assembler, from the spec's error taxonomy. -/
inductive AssemblerError
  | RetrievalUnavailableError (msg : String)
deriving Repr, DecidableEq

/-- Truncate an excerpt to a hard character budget of `n`. -/
def truncateExcerpt (n : Nat) (s : String) : String :=
  ⟨s.data.take n⟩

/-- Descending-score comparison used to order fragments; keeping ties
with the collaborator's original order is the stable sort below. -/
def docLE (a b : RawDoc) : Bool :=
  b.score ≤ a.score

/-- Turn a score-ordered document list into fragments with ranks
`i, i+1, ...` and excerpts truncated to `maxLen`. -/
def attachRanks (maxLen : Nat) : Nat → List RawDoc → List RetrievedFragment
  | _, [] => []
  | i, d :: ds =>
    ⟨d.sourceId, i, truncateExcerpt maxLen d.excerpt, d.score⟩ ::
      attachRanks maxLen (i + 1) ds

/-- Modelled from the spec: `retrieve(query, k)` "calls an external
index-search collaborator with `query`, requests top-`k` results, fails
with RetrievalUnavailableError if the collaborator is unreachable or
returns an error; on success returns an ordered sequence of
RetrievedFragment sorted by descending relevance score (ties broken by
original collaborator order — stable sort)" with each excerpt truncated
to a fixed maximum length; the concrete code is the
`KnowledgeBasePlugin.search_docs` plugin file, absent from the
sources. -/
def retrieve (collab : String → Nat → Except String (List RawDoc))
    (maxLen : Nat) (query : String) (k : Nat) :
    Except AssemblerError (List RetrievedFragment) :=
  match collab query k with
  | .error e => .error (.RetrievalUnavailableError e)
  | .ok docs => .ok (attachRanks maxLen 1 ((docs.mergeSort docLE).take k))

/-- The structured payload produced by `assemble`: the query plus
per-fragment citations, or an explicit no-documents marker. -/
inductive AssembledPayload
  | noDocs (query : String)
  | withDocs (query : String) (citations : List (String × String))
deriving Repr, DecidableEq

/-- Does a payload explicitly indicate that no supporting documents
were found? -/
def AssembledPayload.indicatesNoDocs : AssembledPayload → Bool
  | .noDocs _ => true
  | .withDocs _ _ => false

/-- Render a payload to the text handed to the reasoning engine. -/
def renderPayload : AssembledPayload → String
  | .noDocs q => "Query: " ++ q ++ " -- No supporting documents found."
  | .withDocs q cs =>
    "Query: " ++ q ++ " -- Sources: " ++
      String.intercalate "; " (cs.map fun c => c.1 ++ ": " ++ c.2)

/-- Modelled from the spec: `assemble(query, fragments)` "produces a
single structured payload: the original query plus, for each fragment,
its source identifier and excerpt"; "empty fragment list is valid:
produces a 'no supporting documents found' payload, not an error"; the
concrete code is in the KnowledgeBase plugin file, absent from the
sources. -/
def assemble (query : String) (frags : List RetrievedFragment) :
    AssembledPayload :=
  if frags.isEmpty then
    .noDocs query
  else
    .withDocs query (frags.map fun f => (f.sourceId, f.excerpt))

/- ## Conversation loop and chat glue -/

/-- Roles of conversation turns. -/
inductive Role
  | user
  | assistant
  | functionResult
deriving Repr, DecidableEq

/-- ConversationTurn: role and content. -/
structure ChatMessage where
  role : Role
  content : String
deriving Repr, DecidableEq

/-- The user turn appended by `history.add_user_message`. -/
def mkUserMessage (s : String) : ChatMessage :=
  ⟨Role.user, s⟩

/-- State visible to the notebook's chat cell: the module-level
`history` object plus everything printed so far. -/
structure ChatState where
  history : List ChatMessage
  printed : List String
deriving Repr, DecidableEq

/-- Outcome of the awaited completion call
(`chat_completion.get_chat_message_content`): a message, a cancellation
of the outstanding task, or a failure. -/
inductive CompletionOutcome
  | success (msg : ChatMessage)
  | cancelled
  | failure (err : String)

/-- Errors that propagate out of the chat cell. -/
inductive ChatError
  | cancelled
  | completionFailure (err : String)
deriving Repr, DecidableEq

/-- Embeds `chat_with_assistant` from `sk-main.ipynb`: append the user
message to the shared history, print it, await the completion on the
history, then print the result and append it to the history.  The
awaited vendor call is the `completion` collaborator; a raised
cancellation or failure aborts the remaining statements.  The Python
function returns `None`, hence the `Unit` success value. -/
def chatWithAssistant (completion : List ChatMessage → CompletionOutcome)
    (s : ChatState) (userInput : String) : Except ChatError Unit × ChatState :=
  let s1 : ChatState :=
    { history := s.history ++ [mkUserMessage userInput]
      printed := s.printed ++ ["User > " ++ userInput] }
  match completion s1.history with
  | .success m =>
    (.ok (), { history := s1.history ++ [m]
               printed := s1.printed ++ ["Assistant > " ++ m.content] })
  | .cancelled => (.error .cancelled, s1)
  | .failure e => (.error (.completionFailure e), s1)

/-- Reasoning-engine response: a final answer or a function-call
request. -/
inductive EngineResponse
  | finalAnswer (text : String)
  | functionCall (ns nm : String) (args : Args)

/-- Errors of the conversation loop. -/
inductive LoopError
  | MaxHopsExceededError
  | registryError (e : RegistryError)
deriving Repr, DecidableEq

/-- Render a value as function-result turn content. -/
def Value.render : Value → String
  | .vStr s => s
  | .vNum n => toString n
  | .vBool b => toString b

/-- Modelled from the spec: the conversation loop of §4.3 with the max
hop count of §4.3/§7, which the notebook source
(`FunctionChoiceBehavior.Auto`) does not bound: after each completion
request, a response naming a function is dispatched via the registry,
its result appended as a function-result turn, and the loop repeats;
otherwise the response is the final answer, appended as an assistant
turn.  The loop fails with MaxHopsExceededError when the configured
hop budget is exhausted.  On success it returns the answer, the final
history and the number of hops used. -/
def runLoop (engine : List ChatMessage → EngineResponse) (r : Registry) :
    Nat → List ChatMessage → Except LoopError (String × List ChatMessage × Nat)
  | 0, _ => .error .MaxHopsExceededError
  | n + 1, hist =>
    match engine hist with
    | .finalAnswer t => .ok (t, hist ++ [⟨Role.assistant, t⟩], 1)
    | .functionCall ns nm args =>
      match r.invoke ns nm args with
      | .ok v =>
        match runLoop engine r n (hist ++ [⟨Role.functionResult, v.render⟩]) with
        | .ok (t, h, used) => .ok (t, h, used + 1)
        | .error e => .error e
      | .error e => .error (.registryError e)

/- ## Sample instances used by witnesses -/

/-- Descriptor of the LightsPlugin get_lights function. -/
def sampleDesc : FunctionDescriptor :=
  ⟨"get_lights", "Gets a list of lights and their current state", []⟩

/-- A concrete implementation for the sample descriptor. -/
def sampleImpl : Impl := fun _ => .ok (.vStr "Table Lamp: on")

/-- An implementation that raises. -/
def failingImpl : Impl := fun _ => .error "boom"

/-- Descriptor of a failing diagnostic function. -/
def failingDesc : FunctionDescriptor := ⟨"diagnose", "Always raises", []⟩

/-- A registry holding the sample functions. -/
def sampleRegistry : Registry :=
  ⟨[("Lights", sampleDesc, sampleImpl), ("Lights", failingDesc, failingImpl)]⟩

/- ## Helper lemmas -/

theorem lookup_some_invoke (r : Registry) (ns nm : String) (args : Args)
    (d : FunctionDescriptor) (impl : Impl)
    (hreg : r.lookup ns nm = some (d, impl))
    (hval : validateArgs d.params args = true) :
    r.invoke ns nm args =
      match impl args with
      | .ok v => .ok v
      | .error e => .error (.FunctionExecutionError e) := by
  simp [Registry.invoke, hreg, hval]

/- ## Claims -/

/-- C1: for every registered pair and every argument set passing schema
validation, `invoke` returns exactly what directly calling the bound
implementation returns, and when the implementation raises, `invoke`
fails with FunctionExecutionError wrapping that failure. -/
theorem invoke_matches_direct_call (r : Registry) (ns nm : String)
    (args : Args) (d : FunctionDescriptor) (impl : Impl)
    (hreg : r.lookup ns nm = some (d, impl))
    (hval : validateArgs d.params args = true) :
    (∀ v, impl args = .ok v → r.invoke ns nm args = .ok v) ∧
    (∀ e, impl args = .error e →
      r.invoke ns nm args = .error (.FunctionExecutionError e)) := by
  constructor
  · intro v hv
    rw [lookup_some_invoke r ns nm args d impl hreg hval]
    simp [hv]
  · intro e he
    rw [lookup_some_invoke r ns nm args d impl hreg hval]
    simp [he]

/-- C1 witness: on the sample registry, invoking the sample function
returns its implementation's value, and invoking the raising function
surfaces FunctionExecutionError. -/
theorem invoke_matches_direct_call_witness :
    sampleRegistry.invoke "Lights" "get_lights" [] = .ok (.vStr "Table Lamp: on") ∧
    sampleRegistry.invoke "Lights" "diagnose" [] =
      .error (.FunctionExecutionError "boom") :=
  ⟨(invoke_matches_direct_call sampleRegistry "Lights" "get_lights" []
      sampleDesc sampleImpl rfl rfl).1 (.vStr "Table Lamp: on") rfl,
   (invoke_matches_direct_call sampleRegistry "Lights" "diagnose" []
      failingDesc failingImpl rfl rfl).2 "boom" rfl⟩

/-- C2: registering an already-registered (namespace, name) pair fails
with DuplicateNameError and produces no updated registry (the existing
mapping is untouched); when the pair is absent, registration succeeds
and inserts exactly that entry at the end, leaving every other lookup
unchanged. -/
theorem register_duplicate_fails (r : Registry) (ns : String)
    (d : FunctionDescriptor) (impl : Impl) :
    (∀ p, r.lookup ns d.name = some p →
      r.register ns d impl = .error .DuplicateNameError) ∧
    (r.lookup ns d.name = none →
      ∃ r', r.register ns d impl = .ok r' ∧
        r'.entries = r.entries ++ [(ns, d, impl)] ∧
        r'.lookup ns d.name = some (d, impl)) := by
  constructor
  · intro p hp
    simp [Registry.register, hp]
  · intro hn
    refine ⟨⟨r.entries ++ [(ns, d, impl)]⟩, ?_, rfl, ?_⟩
    · simp [Registry.register, hn]
    · have hf : r.entries.find?
          (fun e => e.1 == ns && e.2.1.name == d.name) = none := by
        unfold Registry.lookup at hn
        exact Option.map_eq_none'.mp hn
      simp [Registry.lookup, List.find?_append, hf]

/-- C2 witness: re-registering get_lights on the sample registry fails
with DuplicateNameError, and registering a fresh name inserts it. -/
theorem register_duplicate_fails_witness :
    sampleRegistry.register "Lights" sampleDesc sampleImpl =
      .error .DuplicateNameError ∧
    ∃ r', sampleRegistry.register "Weather" sampleDesc sampleImpl = .ok r' ∧
      r'.entries = sampleRegistry.entries ++ [("Weather", sampleDesc, sampleImpl)] ∧
      r'.lookup "Weather" "get_lights" = some (sampleDesc, sampleImpl) :=
  ⟨(register_duplicate_fails sampleRegistry "Lights" sampleDesc sampleImpl).1
      (sampleDesc, sampleImpl) rfl,
   (register_duplicate_fails sampleRegistry "Weather" sampleDesc sampleImpl).2 rfl⟩

/-- C9: successful registration appends the descriptor, with its
namespace prefix, at the end of the catalog: descriptors registered
earlier appear earlier, so the catalog is ordered by registration
time. -/
theorem catalog_ordered_by_registration (r r' : Registry) (ns : String)
    (d : FunctionDescriptor) (impl : Impl)
    (h : r.register ns d impl = .ok r') :
    r'.catalog = r.catalog ++ [(ns, d)] := by
  unfold Registry.register at h
  cases hl : r.lookup ns d.name with
  | some p => rw [hl] at h; cases h
  | none =>
    rw [hl] at h
    cases h
    simp [Registry.catalog]

/-- C9 witness: registering a fresh function on the sample registry
appends ("Weather", sampleDesc) to the catalog. -/
theorem catalog_ordered_by_registration_witness :
    (Registry.mk (sampleRegistry.entries ++ [("Weather", sampleDesc, sampleImpl)])).catalog =
      sampleRegistry.catalog ++ [("Weather", sampleDesc)] :=
  catalog_ordered_by_registration sampleRegistry
    ⟨sampleRegistry.entries ++ [("Weather", sampleDesc, sampleImpl)]⟩
    "Weather" sampleDesc sampleImpl rfl

theorem find?_filter_other_ns
    (l : List (String × FunctionDescriptor × Impl)) (ns ns' nm : String)
    (h : ns' ≠ ns) :
    (l.filter (fun e => e.1 != ns)).find?
        (fun e => e.1 == ns' && e.2.1.name == nm) =
      l.find? (fun e => e.1 == ns' && e.2.1.name == nm) := by
  induction l with
  | nil => rfl
  | cons a l ih =>
    by_cases ha : a.1 = ns
    · have hns : (ns == ns') = false := by simp [Ne.symm h]
      simp [List.filter_cons, List.find?_cons, ha, hns, ih]
    · by_cases hpa : (a.1 == ns' && a.2.1.name == nm) = true
      · simp [List.filter_cons, List.find?_cons, ha, hpa]
      · simp only [Bool.not_eq_true] at hpa
        simp [List.filter_cons, List.find?_cons, ha, hpa, ih]

/-- C7: `unregister(namespace)` removes every function under that
namespace, leaves lookups under every other namespace unchanged, and is
a no-op returning normally (not an error) when the namespace is
absent. -/
theorem unregister_removes_namespace (r : Registry) (ns : String) :
    (∀ nm, (r.unregister ns).lookup ns nm = none) ∧
    (∀ ns' nm, ns' ≠ ns →
      (r.unregister ns).lookup ns' nm = r.lookup ns' nm) ∧
    ((∀ e ∈ r.entries, e.1 ≠ ns) → r.unregister ns = r) := by
  refine ⟨fun nm => ?_, fun ns' nm h => ?_, fun h => ?_⟩
  · unfold Registry.unregister Registry.lookup
    rw [List.find?_eq_none.mpr, Option.map_none']
    intro e he
    have : e.1 ≠ ns := by
      have := (List.mem_filter.mp he).2
      simpa using this
    simp [this]
  · unfold Registry.unregister Registry.lookup
    rw [find?_filter_other_ns r.entries ns ns' nm h]
  · unfold Registry.unregister
    have : r.entries.filter (fun e => e.1 != ns) = r.entries :=
      List.filter_eq_self.mpr (fun a ha => by simp [h a ha])
    rw [this]

/-- C7 witness: unregistering "Lights" empties its lookups on the
sample registry, preserves other namespaces, and unregistering the
absent namespace "Weather" is a no-op. -/
theorem unregister_removes_namespace_witness :
    (sampleRegistry.unregister "Lights").lookup "Lights" "get_lights" = none ∧
    (sampleRegistry.unregister "Weather").lookup "Lights" "get_lights" =
      sampleRegistry.lookup "Lights" "get_lights" ∧
    sampleRegistry.unregister "Weather" = sampleRegistry :=
  ⟨(unregister_removes_namespace sampleRegistry "Lights").1 "get_lights",
   (unregister_removes_namespace sampleRegistry "Weather").2.1 "Lights"
      "get_lights" (by decide),
   (unregister_removes_namespace sampleRegistry "Weather").2.2 (by
      intro e he
      simp only [sampleRegistry, List.mem_cons, List.not_mem_nil, or_false] at he
      rcases he with h | h <;> subst h <;> decide)⟩

theorem truncateExcerpt_length_le (n : Nat) (s : String) :
    (truncateExcerpt n s).length ≤ n := by
  show (s.data.take n).length ≤ n
  exact List.length_take_le n s.data

theorem attachRanks_length (maxLen i : Nat) (ds : List RawDoc) :
    (attachRanks maxLen i ds).length = ds.length := by
  induction ds generalizing i with
  | nil => rfl
  | cons d ds ih => simp [attachRanks, ih]

theorem attachRanks_mem (maxLen i : Nat) (ds : List RawDoc)
    (f : RetrievedFragment) (hf : f ∈ attachRanks maxLen i ds) :
    ∃ d ∈ ds, f.score = d.score ∧
      f.excerpt = truncateExcerpt maxLen d.excerpt := by
  induction ds generalizing i with
  | nil => cases hf
  | cons d ds ih =>
    rcases List.mem_cons.mp hf with h | h
    · exact ⟨d, List.mem_cons_self d ds, by rw [h], by rw [h]⟩
    · obtain ⟨d', hd', hs, he⟩ := ih (i + 1) h
      exact ⟨d', List.mem_cons_of_mem d hd', hs, he⟩

theorem attachRanks_pairwise (maxLen i : Nat) (ds : List RawDoc)
    (h : ds.Pairwise (fun a b => docLE a b = true)) :
    (attachRanks maxLen i ds).Pairwise (fun a b => b.score ≤ a.score) := by
  induction ds generalizing i with
  | nil => exact List.Pairwise.nil
  | cons d ds ih =>
    rcases List.pairwise_cons.mp h with ⟨hd, hds⟩
    refine List.Pairwise.cons ?_ (ih (i + 1) hds)
    intro f hf
    obtain ⟨d', hd', hs, _⟩ := attachRanks_mem maxLen (i + 1) ds f hf
    have := hd d' hd'
    simp only [docLE, decide_eq_true_eq] at this
    simpa [hs] using this

theorem docLE_trans : ∀ a b c : RawDoc, docLE a b → docLE b c → docLE a c := by
  intro a b c hab hbc
  simp only [docLE, decide_eq_true_eq] at *
  omega

theorem docLE_total : ∀ a b : RawDoc, docLE a b || docLE b a := by
  intro a b
  simp only [docLE, Bool.or_eq_true, decide_eq_true_eq]
  omega

theorem pairwise_docLE_of_const_score (l : List RawDoc) (s : Int)
    (hall : ∀ x ∈ l, x.score = s) :
    l.Pairwise (fun a b => docLE a b = true) := by
  induction l with
  | nil => exact List.Pairwise.nil
  | cons a l ih =>
    refine List.Pairwise.cons ?_
      (ih fun x hx => hall x (List.mem_cons_of_mem a hx))
    intro b hb
    have ha := hall a (List.mem_cons_self a l)
    have hbs := hall b (List.mem_cons_of_mem a hb)
    simp [docLE, ha, hbs]

theorem mergeSort_stable_score (docs : List RawDoc) (s : Int) :
    (docs.mergeSort docLE).filter (fun d => d.score == s) =
      docs.filter (fun d => d.score == s) := by
  have hall : ∀ x ∈ docs.filter (fun d => d.score == s), x.score = s := by
    intro x hx
    have := (List.mem_filter.mp hx).2
    simpa using this
  have hpair : (docs.filter (fun d => d.score == s)).Pairwise
      (fun a b => docLE a b = true) :=
    pairwise_docLE_of_const_score _ s hall
  have h1 : List.Sublist (docs.filter (fun d => d.score == s))
      (docs.mergeSort docLE) :=
    List.sublist_mergeSort docLE_trans docLE_total hpair
      (List.filter_sublist docs)
  have h2 : List.Sublist (docs.filter (fun d => d.score == s))
      ((docs.mergeSort docLE).filter (fun d => d.score == s)) := by
    have hf := h1.filter (fun d => d.score == s)
    rwa [List.filter_eq_self.mpr (fun a ha => by simpa using hall a ha)] at hf
  have hlen : ((docs.mergeSort docLE).filter (fun d => d.score == s)).length =
      (docs.filter (fun d => d.score == s)).length :=
    ((List.mergeSort_perm docs docLE).filter _).length_eq
  exact (h2.eq_of_length hlen.symm).symm

/-- C3: when the collaborator answers, `retrieve(query, k)` succeeds
with at most `k` fragments, in non-increasing relevance-score order,
each excerpt truncated to at most the configured maximum length; and
ties are broken by the collaborator's original order: the fragments
are the rank-attached `k`-prefix of a sorted permutation of the
collaborator's documents that, within every relevance-score class,
lists the documents exactly in their original order. -/
theorem retrieve_bounded_sorted
    (collab : String → Nat → Except String (List RawDoc))
    (maxLen : Nat) (q : String) (k : Nat) (docs : List RawDoc)
    (h : collab q k = .ok docs) :
    ∃ frags, retrieve collab maxLen q k = .ok frags ∧
      frags.length ≤ k ∧
      frags.Pairwise (fun a b => b.score ≤ a.score) ∧
      (∀ f ∈ frags, f.excerpt.length ≤ maxLen) ∧
      ∃ sorted, List.Perm sorted docs ∧
        sorted.Pairwise (fun a b => b.score ≤ a.score) ∧
        (∀ s : Int, sorted.filter (fun d => d.score == s) =
          docs.filter (fun d => d.score == s)) ∧
        frags = attachRanks maxLen 1 (sorted.take k) := by
  have hp : (docs.mergeSort docLE).Pairwise (fun a b => docLE a b = true) :=
    List.sorted_mergeSort docLE_trans docLE_total docs
  refine ⟨attachRanks maxLen 1 ((docs.mergeSort docLE).take k),
    by simp [retrieve, h], ?_, ?_, ?_, ?_⟩
  · rw [attachRanks_length]
    exact List.length_take_le k _
  · exact attachRanks_pairwise maxLen 1 _
      (hp.sublist (List.take_sublist k _))
  · intro f hf
    obtain ⟨d, _, _, he⟩ := attachRanks_mem maxLen 1 _ f hf
    rw [he]
    exact truncateExcerpt_length_le maxLen d.excerpt
  · refine ⟨docs.mergeSort docLE, List.mergeSort_perm docs docLE, ?_,
      fun s => mergeSort_stable_score docs s, rfl⟩
    exact hp.imp (fun hab => by simpa [docLE] using hab)

/-- Five ranked documents as the collaborator hands them back; doc2
and doc3 tie at score 9, exercising the tie-breaking clause. -/
def docsFive : List RawDoc :=
  [⟨"doc1", "alpha", 7⟩, ⟨"doc2", "beta", 9⟩, ⟨"doc3", "gamma", 9⟩,
   ⟨"doc4", "delta", 3⟩, ⟨"doc5", "epsilon", 5⟩]

/-- A collaborator returning the five ranked documents, matching the
spec's retrieval scenario. -/
def collabFive : String → Nat → Except String (List RawDoc) :=
  fun _ _ => .ok docsFive

/-- C3 witness: with five ranked documents (two tied at score 9) and
k = 3, retrieval succeeds with at most three fragments, score-sorted
with ties in collaborator order, excerpts bounded by 500. -/
theorem retrieve_bounded_sorted_witness :
    ∃ frags, retrieve collabFive 500 "seller disclosures" 3 = .ok frags ∧
      frags.length ≤ 3 ∧
      frags.Pairwise (fun a b => b.score ≤ a.score) ∧
      (∀ f ∈ frags, f.excerpt.length ≤ 500) ∧
      ∃ sorted, List.Perm sorted docsFive ∧
        sorted.Pairwise (fun a b => b.score ≤ a.score) ∧
        (∀ s : Int, sorted.filter (fun d => d.score == s) =
          docsFive.filter (fun d => d.score == s)) ∧
        frags = attachRanks 500 1 (sorted.take 3) :=
  retrieve_bounded_sorted collabFive 500 "seller disclosures" 3 docsFive rfl

/-- C8: `assemble` on the empty fragment sequence returns the explicit
no-supporting-documents payload, whose rendering is a non-empty string,
and which no non-empty fragment sequence can produce — the indicator is
unambiguous.  `assemble` is a pure function of its two arguments. -/
theorem assemble_empty_explicit (q : String) :
    assemble q [] = .noDocs q ∧
    (assemble q []).indicatesNoDocs = true ∧
    0 < (renderPayload (assemble q [])).length ∧
    ∀ frags, frags ≠ [] → (assemble q frags).indicatesNoDocs = false := by
  refine ⟨rfl, rfl, ?_, ?_⟩
  · have h7 : (0 : Nat) < "Query: ".length := by decide
    simp [assemble, renderPayload, String.length_append]
    exact Or.inl (Or.inl h7)
  · intro frags hne
    have : frags.isEmpty = false := by
      cases frags with
      | nil => exact absurd rfl hne
      | cons f fs => rfl
    simp [assemble, this, AssembledPayload.indicatesNoDocs]

/-- A concrete fragment for the C8 witness. -/
def fragOne : RetrievedFragment := ⟨"doc1", 1, "alpha", 7⟩

/-- C8 witness: at the concrete query "seller disclosures", the empty
assembly is the explicit no-documents payload with a non-empty
rendering, and a one-fragment assembly does not carry the marker. -/
theorem assemble_empty_explicit_witness :
    assemble "seller disclosures" [] = .noDocs "seller disclosures" ∧
    (assemble "seller disclosures" []).indicatesNoDocs = true ∧
    0 < (renderPayload (assemble "seller disclosures" [])).length ∧
    (assemble "seller disclosures" [fragOne]).indicatesNoDocs = false :=
  ⟨(assemble_empty_explicit "seller disclosures").1,
   (assemble_empty_explicit "seller disclosures").2.1,
   (assemble_empty_explicit "seller disclosures").2.2.1,
   (assemble_empty_explicit "seller disclosures").2.2.2 [fragOne] (by simp)⟩

/-- C4: if the awaited completion call is cancelled or fails, no
partial turn is appended: the history after the aborted call is exactly
the history as it stood when the call was issued (the user message had
already been appended by `history.add_user_message` before the await),
and the error propagates. -/
theorem chat_cancel_no_partial_turn
    (completion : List ChatMessage → CompletionOutcome) (s : ChatState)
    (u : String)
    (h : ∀ m, completion (s.history ++ [mkUserMessage u]) ≠ .success m) :
    (chatWithAssistant completion s u).2.history =
      s.history ++ [mkUserMessage u] ∧
    ∃ e, (chatWithAssistant completion s u).1 = .error e := by
  cases hc : completion (s.history ++ [mkUserMessage u]) with
  | success m => exact absurd hc (h m)
  | cancelled =>
    refine ⟨?_, ChatError.cancelled, ?_⟩ <;> simp [chatWithAssistant, hc]
  | failure e =>
    refine ⟨?_, ChatError.completionFailure e, ?_⟩ <;>
      simp [chatWithAssistant, hc]

/-- A completion collaborator that is always cancelled. -/
def cancelledCompletion : List ChatMessage → CompletionOutcome :=
  fun _ => .cancelled

/-- C4 witness: with a cancelled completion, the chat cell leaves the
history at exactly the pre-call state and surfaces an error. -/
theorem chat_cancel_no_partial_turn_witness :
    (chatWithAssistant cancelledCompletion ⟨[], []⟩ "hello").2.history =
      [] ++ [mkUserMessage "hello"] ∧
    ∃ e, (chatWithAssistant cancelledCompletion ⟨[], []⟩ "hello").1 =
      .error e :=
  chat_cancel_no_partial_turn cancelledCompletion ⟨[], []⟩ "hello"
    (fun _m hm => CompletionOutcome.noConfusion hm)

theorem chat_history_extends
    (completion : List ChatMessage → CompletionOutcome) (s : ChatState)
    (u : String) :
    (chatWithAssistant completion s u).2.history =
      s.history ++ [mkUserMessage u] ∨
    ∃ m, completion (s.history ++ [mkUserMessage u]) = .success m ∧
      (chatWithAssistant completion s u).2.history =
        s.history ++ [mkUserMessage u, m] := by
  cases hc : completion (s.history ++ [mkUserMessage u]) with
  | success m => exact Or.inr ⟨m, rfl, by simp [chatWithAssistant, hc]⟩
  | cancelled => exact Or.inl (by simp [chatWithAssistant, hc])
  | failure e => exact Or.inl (by simp [chatWithAssistant, hc])

/-- C5: the conversation history is append-only — every run of the
chat cell extends the prior history, never modifying or removing
earlier turns, and appends the completion's answer at most once: either
only the user turn is appended (aborted call) or exactly the user turn
followed by one assistant turn. -/
theorem chat_history_append_only
    (completion : List ChatMessage → CompletionOutcome) (s : ChatState)
    (u : String) :
    (chatWithAssistant completion s u).2.history =
      s.history ++ [mkUserMessage u] ∨
    ∃ m, completion (s.history ++ [mkUserMessage u]) = .success m ∧
      (chatWithAssistant completion s u).2.history =
        s.history ++ [mkUserMessage u, m] :=
  chat_history_extends completion s u

/-- C10: `chat_with_assistant` returns no value — its success result is
`None` (here `Unit`) — the reply reaches the caller only by being
printed and appended to the shared history, and accumulated state
persists: any later call extends the history produced by this one
rather than starting fresh. -/
theorem chat_returns_none_reply_in_state
    (completion : List ChatMessage → CompletionOutcome) (s : ChatState)
    (u : String) (m : ChatMessage)
    (h : completion (s.history ++ [mkUserMessage u]) = .success m) :
    (chatWithAssistant completion s u).1 = .ok () ∧
    (chatWithAssistant completion s u).2.printed =
      s.printed ++ ["User > " ++ u, "Assistant > " ++ m.content] ∧
    (chatWithAssistant completion s u).2.history =
      s.history ++ [mkUserMessage u, m] ∧
    ∀ u', ∃ suffix,
      (chatWithAssistant completion
          (chatWithAssistant completion s u).2 u').2.history =
        (s.history ++ [mkUserMessage u, m]) ++ suffix := by
  refine ⟨by simp [chatWithAssistant, h], by simp [chatWithAssistant, h],
    by simp [chatWithAssistant, h], ?_⟩
  intro u'
  have hs : (chatWithAssistant completion s u).2.history =
      s.history ++ [mkUserMessage u, m] := by simp [chatWithAssistant, h]
  rcases chat_history_extends completion
      (chatWithAssistant completion s u).2 u' with h2 | ⟨m', _, h2⟩
  · exact ⟨[mkUserMessage u'], by rw [h2, hs]⟩
  · exact ⟨[mkUserMessage u', m'], by rw [h2, hs]⟩

/-- A fixed assistant reply used by the C10 witness. -/
def msgOk : ChatMessage := ⟨Role.assistant, "All lights are on"⟩

/-- A completion collaborator that always answers with `msgOk`. -/
def okCompletion : List ChatMessage → CompletionOutcome :=
  fun _ => .success msgOk

/-- C10 witness: a concrete successful chat run returns `()`, prints
the reply, stores it in the history, and a follow-up call extends that
same history. -/
theorem chat_returns_none_reply_in_state_witness :
    (chatWithAssistant okCompletion ⟨[], []⟩ "hi").1 = .ok () ∧
    (chatWithAssistant okCompletion ⟨[], []⟩ "hi").2.printed =
      [] ++ ["User > " ++ "hi", "Assistant > " ++ msgOk.content] ∧
    (chatWithAssistant okCompletion ⟨[], []⟩ "hi").2.history =
      [] ++ [mkUserMessage "hi", msgOk] ∧
    ∃ suffix,
      (chatWithAssistant okCompletion
          (chatWithAssistant okCompletion ⟨[], []⟩ "hi").2 "and now?").2.history =
        ([] ++ [mkUserMessage "hi", msgOk]) ++ suffix :=
  ⟨(chat_returns_none_reply_in_state okCompletion ⟨[], []⟩ "hi" msgOk rfl).1,
   (chat_returns_none_reply_in_state okCompletion ⟨[], []⟩ "hi" msgOk rfl).2.1,
   (chat_returns_none_reply_in_state okCompletion ⟨[], []⟩ "hi" msgOk rfl).2.2.1,
   (chat_returns_none_reply_in_state okCompletion ⟨[], []⟩ "hi" msgOk rfl).2.2.2
      "and now?"⟩

/-- C6: the conversation loop stays within the configured maximum hop
count — a successful run uses at most `maxHops` request/response
cycles — and with max hops = 1 a message whose first response is a
dispatched function call fails with MaxHopsExceededError instead of
issuing a second cycle. -/
theorem loop_respects_max_hops :
    (∀ (engine : List ChatMessage → EngineResponse) (r : Registry)
        (n : Nat) (hist : List ChatMessage) (t : String)
        (h : List ChatMessage) (used : Nat),
        runLoop engine r n hist = .ok (t, h, used) → used ≤ n) ∧
    (∀ (engine : List ChatMessage → EngineResponse) (r : Registry)
        (hist : List ChatMessage) (ns nm : String) (args : Args) (v : Value),
        engine hist = .functionCall ns nm args →
        r.invoke ns nm args = .ok v →
        runLoop engine r 1 hist = .error .MaxHopsExceededError) := by
  constructor
  · intro engine r n
    induction n with
    | zero =>
      intro hist t h used hrun
      simp [runLoop] at hrun
    | succ n ih =>
      intro hist t h used hrun
      cases he : engine hist with
      | finalAnswer t' =>
        simp only [runLoop, he] at hrun
        cases hrun
        omega
      | functionCall ns nm args =>
        simp only [runLoop, he] at hrun
        cases hi : r.invoke ns nm args with
        | error e => simp only [hi] at hrun; cases hrun
        | ok v =>
          simp only [hi] at hrun
          cases hr : runLoop engine r n
              (hist ++ [⟨Role.functionResult, v.render⟩]) with
          | error e => simp only [hr] at hrun; cases hrun
          | ok res =>
            obtain ⟨t', h', used'⟩ := res
            simp only [hr] at hrun
            cases hrun
            have := ih _ _ _ _ hr
            omega
  · intro engine r hist ns nm args v h1 h2
    simp [runLoop, h1, h2]

/-- An engine that keeps requesting the sample function until the
history holds at least three turns, then answers. -/
def chainEngine : List ChatMessage → EngineResponse :=
  fun hist =>
    if hist.length ≥ 3 then .finalAnswer "done"
    else .functionCall "Lights" "get_lights" []

/-- C6 witness: with the chaining engine and max hops 1, the loop
dispatches the first call and then fails with MaxHopsExceededError
instead of issuing a second cycle. -/
theorem loop_respects_max_hops_witness :
    runLoop chainEngine sampleRegistry 1 [] = .error .MaxHopsExceededError :=
  loop_respects_max_hops.2 chainEngine sampleRegistry [] "Lights"
    "get_lights" [] (.vStr "Table Lamp: on") rfl rfl
